import Mathlib

/-!
Shallow embedding of `rclcpp::CallbackGroup` (src/rclcpp/include/rclcpp/callback_group.hpp).

Entities (subscriptions, timers, services, clients, waitables, publishers) are
identified by numeric ids.  A `std::weak_ptr` is embedded as the id it stores,
together with an external liveness environment `alive : EntityId → Bool`
recording which entities still have live strong references; `weak_ptr::lock()`
becomes `lock alive w`, which yields `some w` exactly when the referent is
alive and `none` (a null `shared_ptr`) otherwise.

The header is the authority for the data model: the class holds five vectors
of weak pointers (subscription, timer, service, client, waitable — there is no
publisher vector), two atomic booleans, the group type and the auto-add flag.
Member-function bodies that live in the (absent) `callback_group.cpp` are
modelled from the spec and say so in their doc comments.
-/

namespace Rclcpp

/-- The `CallbackGroupType` enum of callback_group.hpp. -/
inductive CallbackGroupType where
  | MutuallyExclusive
  | Reentrant
deriving DecidableEq, Repr

/-- Entities are identified by numeric ids. -/
abbrev EntityId := Nat

/-- Liveness environment: which entities currently have a live strong reference. -/
abbrev Liveness := EntityId → Bool

/-- `std::weak_ptr::lock()`: yields a strong reference exactly when the referent
is still alive, and the null shared pointer (`none`) otherwise. -/
def lock (alive : Liveness) (w : EntityId) : Option EntityId :=
  if alive w then some w else none

/-- The state of a `rclcpp::CallbackGroup`, with exactly the fields of the
header (the mutex is the lock making each operation one atomic step of this
embedding and has no data content). -/
structure CallbackGroup where
  type_ : CallbackGroupType
  associated_with_executor_ : Bool
  subscription_ptrs_ : List EntityId
  timer_ptrs_ : List EntityId
  service_ptrs_ : List EntityId
  client_ptrs_ : List EntityId
  waitable_ptrs_ : List EntityId
  can_be_taken_from_ : Bool
  automatically_add_to_executor_with_node_ : Bool
deriving DecidableEq, Repr

/-- Modelled from the spec: the constructor body is not under src/.  Per §4.4
and §8, `can_be_taken_from_` starts true, `associated_with_executor_` starts
false, the five sequences start empty, and `type_` and
`automatically_add_to_executor_with_node_` are the arguments. -/
def construct (group_type : CallbackGroupType)
    (automatically_add_to_executor_with_node : Bool) : CallbackGroup :=
  { type_ := group_type
    associated_with_executor_ := false
    subscription_ptrs_ := []
    timer_ptrs_ := []
    service_ptrs_ := []
    client_ptrs_ := []
    waitable_ptrs_ := []
    can_be_taken_from_ := true
    automatically_add_to_executor_with_node_ :=
      automatically_add_to_executor_with_node }

/-- The one-argument form of the constructor: the header declares
`automatically_add_to_executor_with_node = true` as the default argument, so
omitting it constructs with `true`. -/
def construct_default (group_type : CallbackGroupType) : CallbackGroup :=
  construct group_type true

/-- `_find_ptrs_if_impl` of callback_group.hpp: scan the vector in order,
lock each weak pointer, and return the first live reference satisfying
`func`; return the null shared pointer when none does.  `func` is invoked
only on a successfully locked reference (the `ref_ptr && func(ref_ptr)`
short circuit). -/
def _find_ptrs_if_impl (alive : Liveness) (func : EntityId → Bool) :
    List EntityId → Option EntityId
  | [] => none
  | weak_ptr :: rest =>
    match lock alive weak_ptr with
    | some ref_ptr =>
      if func ref_ptr then some ref_ptr else _find_ptrs_if_impl alive func rest
    | none => _find_ptrs_if_impl alive func rest

/-- `_find_ptrs_if_impl` instrumented with the list of references on which
`func` is invoked, in invocation order (same control flow as the source:
`func` runs only on a locked live reference, and the loop returns at the
first satisfied one). -/
def _find_ptrs_if_impl_trace (alive : Liveness) (func : EntityId → Bool) :
    List EntityId → Option EntityId × List EntityId
  | [] => (none, [])
  | weak_ptr :: rest =>
    match lock alive weak_ptr with
    | some ref_ptr =>
      if func ref_ptr then (some ref_ptr, [ref_ptr])
      else
        let r := _find_ptrs_if_impl_trace alive func rest
        (r.1, ref_ptr :: r.2)
    | none => _find_ptrs_if_impl_trace alive func rest

/-- `find_subscription_ptrs_if` of the header. -/
def find_subscription_ptrs_if (g : CallbackGroup) (alive : Liveness)
    (func : EntityId → Bool) : Option EntityId :=
  _find_ptrs_if_impl alive func g.subscription_ptrs_

/-- `find_timer_ptrs_if` of the header. -/
def find_timer_ptrs_if (g : CallbackGroup) (alive : Liveness)
    (func : EntityId → Bool) : Option EntityId :=
  _find_ptrs_if_impl alive func g.timer_ptrs_

/-- `find_service_ptrs_if` of the header. -/
def find_service_ptrs_if (g : CallbackGroup) (alive : Liveness)
    (func : EntityId → Bool) : Option EntityId :=
  _find_ptrs_if_impl alive func g.service_ptrs_

/-- `find_client_ptrs_if` of the header. -/
def find_client_ptrs_if (g : CallbackGroup) (alive : Liveness)
    (func : EntityId → Bool) : Option EntityId :=
  _find_ptrs_if_impl alive func g.client_ptrs_

/-- `find_waitable_ptrs_if` of the header. -/
def find_waitable_ptrs_if (g : CallbackGroup) (alive : Liveness)
    (func : EntityId → Bool) : Option EntityId :=
  _find_ptrs_if_impl alive func g.waitable_ptrs_

/-- `type()` accessor.  Modelled from the spec (body not under src/): returns
the stored group type. -/
def CallbackGroup.type (g : CallbackGroup) : CallbackGroupType := g.type_

/-- `automatically_add_to_executor_with_node()` accessor, inline in the
header: returns the stored flag. -/
def automatically_add_to_executor_with_node (g : CallbackGroup) : Bool :=
  g.automatically_add_to_executor_with_node_

/-- `can_be_taken_from()` read.  Modelled from the spec (body not under
src/): reading the returned atomic reference yields the stored flag. -/
def can_be_taken_from (g : CallbackGroup) : Bool := g.can_be_taken_from_

/-- `get_associated_with_executor_atomic()` read.  Modelled from the spec
(body not under src/): reading the returned atomic reference yields the
stored flag. -/
def get_associated_with_executor_atomic (g : CallbackGroup) : Bool :=
  g.associated_with_executor_

/-- Modelled from the spec: `add_subscription` (body not under src/) appends
a weak reference to the subscription sequence, with no deduplication. -/
def add_subscription (g : CallbackGroup) (e : EntityId) : CallbackGroup :=
  { g with subscription_ptrs_ := g.subscription_ptrs_ ++ [e] }

/-- Modelled from the spec: `add_timer` (body not under src/) appends a weak
reference to the timer sequence, with no deduplication. -/
def add_timer (g : CallbackGroup) (e : EntityId) : CallbackGroup :=
  { g with timer_ptrs_ := g.timer_ptrs_ ++ [e] }

/-- Modelled from the spec: `add_service` (body not under src/) appends a
weak reference to the service sequence, with no deduplication. -/
def add_service (g : CallbackGroup) (e : EntityId) : CallbackGroup :=
  { g with service_ptrs_ := g.service_ptrs_ ++ [e] }

/-- Modelled from the spec: `add_client` (body not under src/) appends a weak
reference to the client sequence, with no deduplication. -/
def add_client (g : CallbackGroup) (e : EntityId) : CallbackGroup :=
  { g with client_ptrs_ := g.client_ptrs_ ++ [e] }

/-- Modelled from the spec: `add_waitable` (body not under src/) appends a
weak reference to the waitable sequence, with no deduplication. -/
def add_waitable (g : CallbackGroup) (e : EntityId) : CallbackGroup :=
  { g with waitable_ptrs_ := g.waitable_ptrs_ ++ [e] }

/-- Modelled from the spec: the body of `add_publisher` is not under src/,
and the header declares no publisher sequence (the class holds exactly five
vectors of weak pointers, none for publishers), so the operation has no
sequence to append to and leaves the state unchanged. -/
def add_publisher (g : CallbackGroup) (_e : EntityId) : CallbackGroup :=
  g

/-- Modelled from the spec: `remove_waitable` (body not under src/) scans the
waitable sequence linearly for an entry matching the given entity by
identity, erases the first match if found, and is a silent no-op otherwise.
`List.erase` is exactly this scan. -/
def remove_waitable (g : CallbackGroup) (e : EntityId) : CallbackGroup :=
  { g with waitable_ptrs_ := g.waitable_ptrs_.erase e }

/-- Modelled from the spec (§4.4): the executor claims the group with an
atomic test-and-set on the flag returned by
`get_associated_with_executor_atomic()`.  One atomic exchange: returns the
previous value and leaves the flag true.  The claim succeeds iff the
returned previous value is false. -/
def exchange_associated (g : CallbackGroup) : Bool × CallbackGroup :=
  (g.associated_with_executor_, { g with associated_with_executor_ := true })

/-- Modelled from the spec (§4.4): the executor releases the group by storing
false into the association flag. -/
def store_associated (g : CallbackGroup) (b : Bool) : CallbackGroup :=
  { g with associated_with_executor_ := b }

/-- Modelled from the spec (§4.4): the scheduler stores into the
dispatch-eligibility flag returned by `can_be_taken_from()`. -/
def store_can_be_taken_from (g : CallbackGroup) (b : Bool) : CallbackGroup :=
  { g with can_be_taken_from_ := b }

/-- The mutating operations this core offers (registry mutations of §4.2 and
the flag writes of §4.4). -/
inductive Op where
  | add_publisher (e : EntityId)
  | add_subscription (e : EntityId)
  | add_timer (e : EntityId)
  | add_service (e : EntityId)
  | add_client (e : EntityId)
  | add_waitable (e : EntityId)
  | remove_waitable (e : EntityId)
  | exchange_associated
  | store_associated (b : Bool)
  | store_can_be_taken_from (b : Bool)
deriving DecidableEq, Repr

/-- Apply one mutating operation. -/
def applyOp (g : CallbackGroup) : Op → CallbackGroup
  | .add_publisher e => add_publisher g e
  | .add_subscription e => add_subscription g e
  | .add_timer e => add_timer g e
  | .add_service e => add_service g e
  | .add_client e => add_client g e
  | .add_waitable e => add_waitable g e
  | .remove_waitable e => remove_waitable g e
  | .exchange_associated => (exchange_associated g).2
  | .store_associated b => store_associated g b
  | .store_can_be_taken_from b => store_can_be_taken_from g b

/-- Apply a sequence of mutating operations, oldest first. -/
def applyOps (g : CallbackGroup) (ops : List Op) : CallbackGroup :=
  ops.foldl applyOp g

/-- The public read-only surface (§6): query the mode, query the auto-add
policy, read either atomic flag, or run a predicate lookup over one of the
five lookup-exposed kinds. -/
inductive ReadOp where
  | read_type
  | read_automatically_add
  | read_can_be_taken_from
  | read_associated_with_executor
  | find_subscription (p : EntityId → Bool)
  | find_timer (p : EntityId → Bool)
  | find_service (p : EntityId → Bool)
  | find_client (p : EntityId → Bool)
  | find_waitable (p : EntityId → Bool)

/-- What a read-only operation observes. -/
inductive ReadResult where
  | mode (t : CallbackGroupType)
  | flag (b : Bool)
  | found (r : Option EntityId)
deriving DecidableEq, Repr

/-- Run one read-only operation: the observation it produces together with
the state of the group afterwards.  Each branch is the corresponding const
member function; none of their bodies writes a field (the lookup skips dead
entries without erasing them). -/
def applyRead (g : CallbackGroup) (alive : Liveness) :
    ReadOp → ReadResult × CallbackGroup
  | .read_type => (.mode g.type, g)
  | .read_automatically_add => (.flag (automatically_add_to_executor_with_node g), g)
  | .read_can_be_taken_from => (.flag (can_be_taken_from g), g)
  | .read_associated_with_executor => (.flag (get_associated_with_executor_atomic g), g)
  | .find_subscription p => (.found (find_subscription_ptrs_if g alive p), g)
  | .find_timer p => (.found (find_timer_ptrs_if g alive p), g)
  | .find_service p => (.found (find_service_ptrs_if g alive p), g)
  | .find_client p => (.found (find_client_ptrs_if g alive p), g)
  | .find_waitable p => (.found (find_waitable_ptrs_if g alive p), g)

/-! Helper lemmas shared by the claim theorems. -/

/-- The scan of `_find_ptrs_if_impl` is `List.find?` with the predicate
"alive and satisfies `func`": first live match in insertion order. -/
theorem find_impl_eq_find (alive : Liveness) (func : EntityId → Bool) :
    ∀ l : List EntityId,
      _find_ptrs_if_impl alive func l = l.find? fun w => alive w && func w
  | [] => rfl
  | w :: ws => by
    by_cases ha : alive w = true
    · by_cases hf : func w = true
      · simp [_find_ptrs_if_impl, lock, ha, hf, List.find?]
      · simp [_find_ptrs_if_impl, lock, ha, hf, List.find?,
          find_impl_eq_find alive func ws]
    · simp [_find_ptrs_if_impl, lock, ha, List.find?,
        find_impl_eq_find alive func ws]

/-- If the first list has no match, `List.find?` over the concatenation is
`List.find?` over the second list. -/
theorem find_append_of_none (q : EntityId → Bool) :
    ∀ l1 l2 : List EntityId, (∀ x ∈ l1, q x = false) →
      (l1 ++ l2).find? q = l2.find? q
  | [], _, _ => rfl
  | w :: ws, l2, h => by
    have hw : q w = false := h w (by simp)
    simp only [List.cons_append, List.find?, hw]
    exact find_append_of_none q ws l2 fun x hx => h x (by simp [hx])

/-- Every mutating operation preserves the stored group type. -/
theorem applyOp_type (g : CallbackGroup) (op : Op) :
    (applyOp g op).type_ = g.type_ := by
  cases op <;> rfl

/-- Every mutating operation preserves the stored auto-add flag. -/
theorem applyOp_auto_add (g : CallbackGroup) (op : Op) :
    (applyOp g op).automatically_add_to_executor_with_node_
      = g.automatically_add_to_executor_with_node_ := by
  cases op <;> rfl

/-- Sequences of mutating operations preserve the stored group type. -/
theorem applyOps_type (ops : List Op) :
    ∀ g : CallbackGroup, (applyOps g ops).type_ = g.type_ := by
  induction ops with
  | nil => intro g; rfl
  | cons op ops ih =>
    intro g
    have h1 : applyOps g (op :: ops) = applyOps (applyOp g op) ops := rfl
    rw [h1, ih (applyOp g op), applyOp_type]

/-- Sequences of mutating operations preserve the stored auto-add flag. -/
theorem applyOps_auto_add (ops : List Op) :
    ∀ g : CallbackGroup,
      (applyOps g ops).automatically_add_to_executor_with_node_
        = g.automatically_add_to_executor_with_node_ := by
  induction ops with
  | nil => intro g; rfl
  | cons op ops ih =>
    intro g
    have h1 : applyOps g (op :: ops) = applyOps (applyOp g op) ops := rfl
    rw [h1, ih (applyOp g op), applyOp_auto_add]

/-- The result component of the instrumented scan agrees with
`_find_ptrs_if_impl`. -/
theorem trace_fst (alive : Liveness) (func : EntityId → Bool) :
    ∀ l : List EntityId,
      (_find_ptrs_if_impl_trace alive func l).1 = _find_ptrs_if_impl alive func l
  | [] => rfl
  | w :: ws => by
    by_cases ha : alive w = true
    · by_cases hf : func w = true
      · simp [_find_ptrs_if_impl_trace, _find_ptrs_if_impl, lock, ha, hf]
      · simp [_find_ptrs_if_impl_trace, _find_ptrs_if_impl, lock, ha, hf,
          trace_fst alive func ws]
    · simp [_find_ptrs_if_impl_trace, _find_ptrs_if_impl, lock, ha,
        trace_fst alive func ws]

/-- The invocation list of the instrumented scan is exactly the live entries,
in insertion order, up to and including the first one satisfying `func`. -/
theorem trace_snd (alive : Liveness) (func : EntityId → Bool) :
    ∀ l : List EntityId,
      (_find_ptrs_if_impl_trace alive func l).2
        = ((l.filter fun w => alive w).takeWhile fun r => !func r)
          ++ ((l.filter fun w => alive w).find? func).toList
  | [] => rfl
  | w :: ws => by
    by_cases ha : alive w = true
    · by_cases hf : func w = true
      · simp [_find_ptrs_if_impl_trace, lock, ha, hf, List.filter_cons,
          List.takeWhile, List.find?]
      · simp [_find_ptrs_if_impl_trace, lock, ha, hf, List.filter_cons,
          List.takeWhile, List.find?, trace_snd alive func ws]
    · simp [_find_ptrs_if_impl_trace, lock, ha, List.filter_cons,
        trace_snd alive func ws]

/-! Claim theorems. -/

/-- C1: For every lookup-exposed entity kind (subscription, timer, service,
client, waitable) and every predicate, the find operation scans the kind's
sequence in insertion order and returns the first live entity satisfying the
predicate; in particular, after `add_timer t` while `t` is alive,
`find_timer_ptrs_if p` returns `t` whenever `p t` is true and no
earlier-registered live timer satisfies `p`. -/
theorem c1_find_first_live_in_insertion_order (g : CallbackGroup)
    (alive : Liveness) (p : EntityId → Bool) (t : EntityId) :
    find_subscription_ptrs_if g alive p
        = g.subscription_ptrs_.find? (fun w => alive w && p w) ∧
    find_timer_ptrs_if g alive p
        = g.timer_ptrs_.find? (fun w => alive w && p w) ∧
    find_service_ptrs_if g alive p
        = g.service_ptrs_.find? (fun w => alive w && p w) ∧
    find_client_ptrs_if g alive p
        = g.client_ptrs_.find? (fun w => alive w && p w) ∧
    find_waitable_ptrs_if g alive p
        = g.waitable_ptrs_.find? (fun w => alive w && p w) ∧
    (alive t = true → p t = true →
      (∀ u ∈ g.timer_ptrs_, alive u = true → p u = true → False) →
      find_timer_ptrs_if (add_timer g t) alive p = some t) := by
  refine ⟨find_impl_eq_find alive p _, find_impl_eq_find alive p _,
    find_impl_eq_find alive p _, find_impl_eq_find alive p _,
    find_impl_eq_find alive p _, ?_⟩
  intro ht hp hprev
  show _find_ptrs_if_impl alive p (g.timer_ptrs_ ++ [t]) = some t
  rw [find_impl_eq_find, find_append_of_none]
  · simp [List.find?, ht, hp]
  · intro x hx
    by_cases hax : alive x = true
    · by_cases hpx : p x = true
      · exact absurd (hprev x hx hax hpx) (by simp)
      · simp [hpx]
    · simp [hax]

/-- Witness for C1 at a concrete input: timers 5 then 7 registered, both
alive, predicate holds only of 7; the lookup returns 7. -/
theorem c1_witness :
    find_timer_ptrs_if
        (add_timer (add_timer (construct .MutuallyExclusive true) 5) 7)
        (fun _ => true) (fun n => n == 7) = some 7 := by
  have h := c1_find_first_live_in_insertion_order
    (add_timer (construct .MutuallyExclusive true) 5)
    (fun _ => true) (fun n => n == 7) 7
  exact h.2.2.2.2.2 rfl (by decide) (by decide)

/-- C2: If no live registered entity satisfies the predicate — including
when every registered entity is dead — the scan underlying every kind's
lookup returns the null shared pointer (`none`), never fails, and never
returns a dead entity. -/
theorem c2_lookup_total_never_dead (alive : Liveness) (p : EntityId → Bool)
    (l : List EntityId) :
    ((∀ w ∈ l, alive w = true → p w = false) →
      _find_ptrs_if_impl alive p l = none) ∧
    (∀ r, _find_ptrs_if_impl alive p l = some r → alive r = true) := by
  constructor
  · intro h
    rw [find_impl_eq_find]
    refine List.find?_eq_none.mpr ?_
    intro x hx
    by_cases hax : alive x = true
    · simp [hax, h x hx hax]
    · simp [hax]
  · intro r hr
    rw [find_impl_eq_find] at hr
    have h2 := List.find?_some hr
    simp only [Bool.and_eq_true] at h2
    exact h2.1

/-- Witness for C2 at a concrete input: entries 3 and 5 are both dead, the
predicate is always true, and the lookup returns `none`. -/
theorem c2_witness :
    _find_ptrs_if_impl (fun n => n == 4) (fun _ => true) [3, 5] = none := by
  have h := c2_lookup_total_never_dead (fun n => n == 4) (fun _ => true) [3, 5]
  exact h.1 (by decide)

/-- C3 as stated is false: the class holds no publisher sequence, so
`add_publisher`, called twice on entity 0, appends nothing anywhere — the
whole state is unchanged, not extended by two duplicate weak entries. -/
theorem c3_counterexample :
    add_publisher (add_publisher (construct .Reentrant true) 0) 0
      = construct .Reentrant true := rfl

/-- C3 amended: for the five kinds that have a sequence (subscription,
timer, service, client, waitable), `add_<kind>` appends a weak entry and
registering twice yields two duplicate entries; the group stores no
publisher references, so `add_publisher` leaves the state unchanged. -/
theorem c3_add_appends_weak_entry (g : CallbackGroup) (e : EntityId) :
    (add_subscription g e).subscription_ptrs_ = g.subscription_ptrs_ ++ [e] ∧
    (add_timer g e).timer_ptrs_ = g.timer_ptrs_ ++ [e] ∧
    (add_service g e).service_ptrs_ = g.service_ptrs_ ++ [e] ∧
    (add_client g e).client_ptrs_ = g.client_ptrs_ ++ [e] ∧
    (add_waitable g e).waitable_ptrs_ = g.waitable_ptrs_ ++ [e] ∧
    (add_subscription (add_subscription g e) e).subscription_ptrs_
      = g.subscription_ptrs_ ++ [e, e] ∧
    add_publisher g e = g := by
  refine ⟨rfl, rfl, rfl, rfl, rfl, ?_, rfl⟩
  simp [add_subscription]

/-- C4 as stated is false: with waitable 0 registered twice (duplicates are
permitted), the first `remove_waitable 0` erases one entry and the second
erases the other, so the second call does not leave the registry as the
first call left it. -/
theorem c4_counterexample :
    remove_waitable (remove_waitable
        (add_waitable (add_waitable (construct .Reentrant true) 0) 0) 0) 0
      ≠ remove_waitable
        (add_waitable (add_waitable (construct .Reentrant true) 0) 0) 0 := by
  decide

/-- C4 amended: `remove_waitable w` erases the first entry matching `w` when
one exists; when no entry matches it leaves the whole group unchanged and
never fails; and calling it twice in a row leaves the registry unchanged on
the second call provided `w` occurs at most once in the waitable sequence. -/
theorem c4_remove_waitable_erases_first_match (g : CallbackGroup)
    (w : EntityId) :
    (w ∉ g.waitable_ptrs_ → remove_waitable g w = g) ∧
    (w ∈ g.waitable_ptrs_ → ∃ l1 l2, w ∉ l1 ∧
      g.waitable_ptrs_ = l1 ++ w :: l2 ∧
      (remove_waitable g w).waitable_ptrs_ = l1 ++ l2) ∧
    (g.waitable_ptrs_.count w ≤ 1 →
      remove_waitable (remove_waitable g w) w = remove_waitable g w) := by
  refine ⟨?_, ?_, ?_⟩
  · intro h
    have he : g.waitable_ptrs_.erase w = g.waitable_ptrs_ :=
      List.erase_of_not_mem h
    cases g
    simp_all [remove_waitable]
  · intro h
    obtain ⟨l1, l2, hnot, heq, herase⟩ := List.exists_erase_eq h
    exact ⟨l1, l2, hnot, heq, herase⟩
  · intro h
    have hcount : (g.waitable_ptrs_.erase w).count w = 0 := by
      rw [List.count_erase_self]
      omega
    have hnm : w ∉ g.waitable_ptrs_.erase w := List.count_eq_zero.mp hcount
    have he : (g.waitable_ptrs_.erase w).erase w = g.waitable_ptrs_.erase w :=
      List.erase_of_not_mem hnm
    cases g
    simp_all [remove_waitable]

/-- Witness for C4 at a concrete input: removing waitable 3, never added,
from a group holding waitable 2 leaves the group unchanged. -/
theorem c4_witness :
    remove_waitable (add_waitable (construct .MutuallyExclusive false) 2) 3
      = add_waitable (construct .MutuallyExclusive false) 2 := by
  have h := c4_remove_waitable_erases_first_match
    (add_waitable (construct .MutuallyExclusive false) 2) 3
  exact h.1 (by decide)

/-- C5: Immediately after construction with any mode and any auto-add value,
the dispatch-eligibility flag is true and the executor-claim flag is
false. -/
theorem c5_initial_flags (gt : CallbackGroupType) (auto_add : Bool) :
    can_be_taken_from (construct gt auto_add) = true ∧
    get_associated_with_executor_atomic (construct gt auto_add) = false :=
  ⟨rfl, rfl⟩

/-- C6: After any sequence of operations of this core, `type()` still
returns exactly the `CallbackGroupType` passed at construction: no operation
mutates the mode. -/
theorem c6_type_immutable (gt : CallbackGroupType) (auto_add : Bool)
    (ops : List Op) :
    CallbackGroup.type (applyOps (construct gt auto_add) ops) = gt := by
  show (applyOps (construct gt auto_add) ops).type_ = gt
  rw [applyOps_type]
  rfl

/-- C7: After any sequence of operations,
`automatically_add_to_executor_with_node()` returns exactly the boolean
passed at construction, and the constructor's defaulted-argument form sets
it to true. -/
theorem c7_auto_add_immutable (gt : CallbackGroupType) (auto_add : Bool)
    (ops : List Op) :
    automatically_add_to_executor_with_node
        (applyOps (construct gt auto_add) ops) = auto_add ∧
    automatically_add_to_executor_with_node (construct_default gt) = true := by
  constructor
  · show (applyOps (construct gt auto_add) ops).automatically_add_to_executor_with_node_
        = auto_add
    rw [applyOps_auto_add]
    rfl
  · rfl

/-- C8: Every operation of the public read surface — querying the mode or
the auto-add policy, reading either atomic flag, and running a predicate
lookup over any of the five lookup-exposed kinds — leaves the entire group
state (all five sequences included) unchanged. -/
theorem c8_read_surface_frame (g : CallbackGroup) (alive : Liveness)
    (op : ReadOp) :
    (applyRead g alive op).2 = g := by
  cases op <;> rfl

/-- C9: Starting from an unclaimed group, in any serialization of two
concurrent atomic test-and-set claims of the executor-association flag, the
first exchange returns false (its thread succeeds in the false→true
transition) and the second returns true (its thread observes the flag
already claimed), so exactly one claim succeeds. -/
theorem c9_exactly_one_executor_claim_succeeds (g : CallbackGroup)
    (h : get_associated_with_executor_atomic g = false) :
    (exchange_associated g).1 = false ∧
    (exchange_associated (exchange_associated g).2).1 = true ∧
    get_associated_with_executor_atomic
      (exchange_associated (exchange_associated g).2).2 = true :=
  ⟨h, rfl, rfl⟩

/-- Witness for C9 at a concrete input: a freshly constructed group. -/
theorem c9_witness :
    (exchange_associated (construct .MutuallyExclusive true)).1 = false ∧
    (exchange_associated
        (exchange_associated (construct .MutuallyExclusive true)).2).1 = true ∧
    get_associated_with_executor_atomic
      (exchange_associated
        (exchange_associated (construct .MutuallyExclusive true)).2).2 = true :=
  c9_exactly_one_executor_claim_succeeds (construct .MutuallyExclusive true) rfl

/-- C10: During a lookup the predicate is invoked exactly on the live
entries, in insertion order, up to and including the first live match
(never on a dead entry, never past the first match), and the instrumented
scan computes the same result as `_find_ptrs_if_impl`. -/
theorem c10_predicate_sees_live_until_first_match (alive : Liveness)
    (func : EntityId → Bool) (l : List EntityId) :
    (_find_ptrs_if_impl_trace alive func l).1 = _find_ptrs_if_impl alive func l ∧
    (_find_ptrs_if_impl_trace alive func l).2
      = ((l.filter fun w => alive w).takeWhile fun r => !func r)
        ++ ((l.filter fun w => alive w).find? func).toList ∧
    ∀ r ∈ (_find_ptrs_if_impl_trace alive func l).2, alive r = true := by
  refine ⟨trace_fst alive func l, trace_snd alive func l, ?_⟩
  intro r hr
  rw [trace_snd] at hr
  rcases List.mem_append.mp hr with h | h
  · have hm : r ∈ l.filter fun w => alive w :=
      (List.takeWhile_sublist _).subset h
    exact (List.mem_filter.mp hm).2
  · cases hf : (l.filter fun w => alive w).find? func with
    | none => simp [hf] at h
    | some x =>
      simp only [hf, Option.toList_some, List.mem_singleton] at h
      subst h
      exact (List.mem_filter.mp (List.mem_of_find?_eq_some hf)).2

end Rclcpp
